import Mathlib

/-!
# Verification of `lib/k1util` (story)

A shallow embedding of `lib/k1util/k1util.go`, which converts secp256k1 key and
signature representations and performs Ethereum RSV-style signing/verification.
All elliptic-curve mathematics is delegated by the Go code to external libraries
(`dcrd/secp256k1`, go-ethereum `crypto`, cosmos-sdk); the embedding therefore
parametrises the repository's glue functions over a structure `EthCrypto`
bundling those library entry points, together with a contract `EthCryptoOk`
recording the documented behaviour the glue relies on (compact-signature shape,
public-key recovery of honestly produced signatures, 65-byte uncompressed
encodings).  Hex decoding and the `strings.Replace`-based prefix stripping are
modelled concretely.

Bytes are `Nat` values (< 256 in all concrete inputs); byte slices are
`List Nat`; Go's `(T, error)` returns become `Except String T`, except for
`Verify` whose `(bool, error)` pair is kept as `Bool × Option String` because
the claims distinguish the boolean from the error.
-/

namespace K1Util

/-- Abstract interface to the external cryptography libraries used by
`k1util.go`.  Each field corresponds to one external entry point the Go file
calls; `PubKey` stands for `*stdecdsa.PublicKey` (go-ethereum's unmarshalled
key object) and `pubkeyOf` for the public key belonging to a private key,
used only to state contracts and claims. -/
structure EthCrypto where
  /-- the type of unmarshalled secp256k1 public keys (`*stdecdsa.PublicKey`) -/
  PubKey : Type
  /-- which `PubKey` values are well-formed points on the curve -/
  validPub : PubKey → Prop
  /-- the public key corresponding to a 32-byte private key -/
  pubkeyOf : List Nat → PubKey
  /-- `ecdsa.SignCompact(secp256k1.PrivKeyFromBytes(key), digest, false)`:
  compact signature with the recovery byte first -/
  signCompact : List Nat → List Nat → List Nat
  /-- `ethcrypto.SigToPub(hash, sig)`: public-key recovery from a 65-byte
  `R || S || V` signature with `V ∈ {0,1}` at index 64 -/
  sigToPub : List Nat → List Nat → Except String PubKey
  /-- `ethcrypto.PubkeyToAddress`: the 20-byte Ethereum address of a key -/
  pubkeyToAddress : PubKey → List Nat
  /-- `ethcrypto.DecompressPubkey`: parse a 33-byte compressed key -/
  decompressPubkey : List Nat → Except String PubKey
  /-- `ethcrypto.FromECDSAPub`: 65-byte `0x04`-prefixed uncompressed encoding -/
  fromECDSAPub : PubKey → List Nat
  /-- `ethcrypto.UnmarshalPubkey`: parse a 65-byte `0x04`-prefixed encoding -/
  unmarshalPubkey : List Nat → Except String PubKey
  /-- `cosmostypes.AccAddress(pubKey.Address().Bytes()).String()` -/
  accAddressString : List Nat → String
  /-- `cosmostypes.ValAddress(pubKey.Address().Bytes()).String()` -/
  valAddressString : List Nat → String

/-- Documented contract of the external libraries, exactly the facts the Go
code's comments and the libraries' documentation promise and that `k1util.go`
relies on:

* `SignCompact(_, _, false)` returns 65 bytes whose first byte is
  `27 + recoveryID` with `recoveryID ∈ {0,1}`, followed by `R || S`
  (64 bytes), and `SigToPub` recovers the signer's public key from
  `R || S || recoveryID`;
* `FromECDSAPub` of a valid key is 65 bytes starting with `0x04`, and
  `UnmarshalPubkey` parses that encoding back to the same key. -/
structure EthCryptoOk (L : EthCrypto) : Prop where
  sign_shape : ∀ k d : List Nat, k.length = 32 → d.length = 32 →
    ∃ recid rs, recid ≤ 1 ∧ rs.length = 64 ∧
      L.signCompact k d = (27 + recid) :: rs ∧
      L.sigToPub d (rs ++ [recid]) = Except.ok (L.pubkeyOf k)
  valid_pubkeyOf : ∀ k : List Nat, k.length = 32 → L.validPub (L.pubkeyOf k)
  fromECDSAPub_len : ∀ pk, L.validPub pk → (L.fromECDSAPub pk).length = 65
  fromECDSAPub_head : ∀ pk, L.validPub pk → (L.fromECDSAPub pk).headD 0 = 4
  unmarshal_fromECDSAPub : ∀ pk, L.validPub pk →
    L.unmarshalPubkey (L.fromECDSAPub pk) = Except.ok pk

/-- Modelled from the spec: `cast.Array65` from `lib/cast` (not under `src/`)
converts a byte slice to a fixed-size 65-byte array, failing when the input
length is not exactly 65 ("Returns exactly 65 bytes"). -/
def castArray65 (bz : List Nat) : Except String (List Nat) :=
  if bz.length = 65 then Except.ok bz else Except.error "invalid length"

/-- `Sign(key, input)` from `k1util.go` lines 36–46.  The comet `crypto.PrivKey`
is represented by its byte encoding `key.Bytes()`, the only thing the Go code
uses.  The compact signature `sig` is rotated by `append(sig[1:], sig[0])`. -/
def Sign (L : EthCrypto) (key : List Nat) (input : List Nat) :
    Except String (List Nat) :=
  if key.length ≠ 32 then Except.error "invalid private key length"
  else
    let sig := L.signCompact key input
    castArray65 (sig.drop 1 ++ sig.take 1)

/-- `Verify(address, hash, sig)` from `k1util.go` lines 52–68, returning the Go
pair `(bool, error)` as `Bool × Option String`. -/
def Verify (L : EthCrypto) (address : List Nat) (hash : List Nat)
    (sig : List Nat) : Bool × Option String :=
  let v := sig.getD 64 0
  if v ≠ 27 ∧ v ≠ 28 then
    (false, some "invalid recovery id (V) format, must be 27 or 28")
  else
    match L.sigToPub hash (sig.set 64 (v - 27)) with
    | Except.error e => (false, some ("recover public key: " ++ e))
    | Except.ok pubkey => (L.pubkeyToAddress pubkey == address, none)

/-- `PubKeyToAddress(pubkey)` from `k1util.go` lines 71–83; the comet
`crypto.PubKey` is represented by its byte encoding `pubkey.Bytes()`. -/
def PubKeyToAddress (L : EthCrypto) (pubkeyBytes : List Nat) :
    Except String (List Nat) :=
  if pubkeyBytes.length ≠ 33 then Except.error "invalid pubkey length"
  else
    match L.decompressPubkey pubkeyBytes with
    | Except.error e => Except.error ("decompress pubkey: " ++ e)
    | Except.ok ethPubKey => Except.ok (L.pubkeyToAddress ethPubKey)

/-- `PubKeyBytesToCosmos(pubkey)` from `k1util.go` lines 116–124; the
`cosmosk1.PubKey` wrapper is represented by its `Key` bytes. -/
def PubKeyBytesToCosmos (pubkey : List Nat) : Except String (List Nat) :=
  if pubkey.length ≠ 33 then Except.error "invalid pubkey length"
  else Except.ok pubkey

/-- `PBPubKeyFromBytes(pubkey)` from `k1util.go` lines 126–132; the protobuf
`cryptopb.PublicKey` message is represented by its `Secp256K1` bytes. -/
def PBPubKeyFromBytes (pubkey : List Nat) : Except String (List Nat) :=
  if pubkey.length ≠ 33 then Except.error "invalid pubkey length"
  else Except.ok pubkey

/-- `PubKeyPBToAddress(pubkey)` from `k1util.go` lines 135–147; the input
protobuf message is represented by its `GetSecp256K1()` bytes. -/
def PubKeyPBToAddress (L : EthCrypto) (pubkeyBytes : List Nat) :
    Except String (List Nat) :=
  if pubkeyBytes.length ≠ 33 then Except.error "invalid pubkey length"
  else
    match L.decompressPubkey pubkeyBytes with
    | Except.error e => Except.error ("decompress pubkey: " ++ e)
    | Except.ok ethPubKey => Except.ok (L.pubkeyToAddress ethPubKey)

/-- `PubKeyToBytes64(pubkey)` from `k1util.go` lines 150–152:
`ethcrypto.FromECDSAPub(pubkey)[1:]`. -/
def PubKeyToBytes64 (L : EthCrypto) (pubkey : L.PubKey) : List Nat :=
  (L.fromECDSAPub pubkey).drop 1

/-- `PubKeyFromBytes64(pubkey)` from `k1util.go` lines 156–170: length check
against `pubkeyUncompressedLen - 1 = 64`, then `0x04` is prepended and the
result unmarshalled. -/
def PubKeyFromBytes64 (L : EthCrypto) (pubkey : List Nat) :
    Except String L.PubKey :=
  if pubkey.length ≠ 65 - 1 then Except.error "invalid pubkey length"
  else
    match L.unmarshalPubkey (4 :: pubkey) with
    | Except.error e => Except.error ("unmarshal pubkey: " ++ e)
    | Except.ok resp => Except.ok resp

/-- `CosmosPubkeyToEVMAddress(pubkeyCmp)` from `k1util.go` lines 174–183.
Note: unlike the functions above, the Go source performs no length check and
passes the input straight to `ethcrypto.DecompressPubkey`. -/
def CosmosPubkeyToEVMAddress (L : EthCrypto) (pubkeyCmp : List Nat) :
    Except String (List Nat) :=
  match L.decompressPubkey pubkeyCmp with
  | Except.error e => Except.error e
  | Except.ok key => Except.ok (L.pubkeyToAddress key)

/-- `strings.Replace(s, "0x", "", 1)`: delete the first (leftmost)
occurrence of the substring `"0x"`, anywhere in the string. -/
def stripFirst0x : List Char → List Char
  | '0' :: 'x' :: rest => rest
  | c :: rest => c :: stripFirst0x rest
  | [] => []

/-- One hex digit, as accepted by Go's `encoding/hex`. -/
def hexDigit (c : Char) : Option Nat :=
  if '0' ≤ c ∧ c ≤ '9' then some (c.toNat - '0'.toNat)
  else if 'a' ≤ c ∧ c ≤ 'f' then some (c.toNat - 'a'.toNat + 10)
  else if 'A' ≤ c ∧ c ≤ 'F' then some (c.toNat - 'A'.toNat + 10)
  else none

/-- `hex.DecodeString`: decode pairs of hex digits into bytes, failing on a
non-hex character or an odd-length input. -/
def hexDecode : List Char → Except String (List Nat)
  | [] => Except.ok []
  | [_] => Except.error "encoding/hex: odd length hex string"
  | c1 :: c2 :: rest =>
    match hexDigit c1, hexDigit c2, hexDecode rest with
    | some hi, some lo, Except.ok bs => Except.ok ((16 * hi + lo) :: bs)
    | _, _, _ => Except.error "encoding/hex: invalid byte"

/-- `decodePubKeyFromHex(pubKeyHex)` from `k1util.go` lines 203–215; the
returned `cosmosk1.PubKey` wrapper is represented by its `Key` bytes
(`secp256k1.PubKeyBytesLenCompressed = 33`). -/
def decodePubKeyFromHex (pubKeyHex : List Char) : Except String (List Nat) :=
  match hexDecode (stripFirst0x pubKeyHex) with
  | Except.error e => Except.error ("invalid compressed public key: " ++ e)
  | Except.ok cmpPubKey =>
    if cmpPubKey.length ≠ 33 then
      Except.error "invalid compressed public key length"
    else Except.ok cmpPubKey

/-- `CmpPubKeyToDelegatorAddress(cmpPubKeyHex)` from `k1util.go`
lines 185–192. -/
def CmpPubKeyToDelegatorAddress (L : EthCrypto) (cmpPubKeyHex : List Char) :
    Except String String :=
  match decodePubKeyFromHex cmpPubKeyHex with
  | Except.error e => Except.error ("invalid compressed public key: " ++ e)
  | Except.ok pubKey => Except.ok (L.accAddressString pubKey)

/-- `CmpPubKeyToValidatorAddress(cmpPubKeyHex)` from `k1util.go`
lines 194–201. -/
def CmpPubKeyToValidatorAddress (L : EthCrypto) (cmpPubKeyHex : List Char) :
    Except String String :=
  match decodePubKeyFromHex cmpPubKeyHex with
  | Except.error e => Except.error ("invalid compressed public key: " ++ e)
  | Except.ok pubKey => Except.ok (L.valAddressString pubKey)

instance {ε : Type u} {α : Type v} [DecidableEq ε] [DecidableEq α] :
    DecidableEq (Except ε α) := fun x y =>
  match x, y with
  | Except.error a, Except.error b =>
    if h : a = b then Decidable.isTrue (by rw [h])
    else Decidable.isFalse (by simp [h])
  | Except.ok a, Except.ok b =>
    if h : a = b then Decidable.isTrue (by rw [h])
    else Decidable.isFalse (by simp [h])
  | Except.error _, Except.ok _ => Decidable.isFalse (by simp)
  | Except.ok _, Except.error _ => Decidable.isFalse (by simp)

/-! ## A concrete library model

A small executable instantiation of `EthCrypto` satisfying `EthCryptoOk`,
used to evaluate the glue functions on concrete inputs.  A public key is
identified with the 32 private-key bytes it belongs to; a compact signature
stores the key bytes as `R` and a reduced image of the digest as `S`, so that
recovery can check well-formedness of the `S` half (as the real library
checks that `s` lies in the valid scalar range) and return the signer. -/

@[reducible] def toyLib : EthCrypto where
  PubKey := List Nat
  validPub pk := pk.length = 32
  pubkeyOf k := k
  signCompact k d := 27 :: (k ++ d.map (fun b => b % 128))
  sigToPub d sig :=
    if sig.length = 65 ∧ sig.getD 64 0 ≤ 1 ∧
        (sig.drop 32).take 32 = d.map (fun b => b % 128) then
      Except.ok (sig.take 32)
    else Except.error "invalid signature values"
  pubkeyToAddress pk := pk.take 20
  decompressPubkey bz :=
    if bz.length = 33 then Except.ok (bz.drop 1)
    else Except.error "invalid public key"
  fromECDSAPub pk := 4 :: (pk ++ List.replicate (64 - pk.length) 0)
  unmarshalPubkey bz :=
    match bz with
    | 4 :: rest =>
      if rest.length = 64 ∧ rest.drop 32 = List.replicate 32 0 then
        Except.ok (rest.take 32)
      else Except.error "invalid public key"
    | _ => Except.error "invalid public key"
  accAddressString _ := "storyAccAddress"
  valAddressString _ := "storyValAddress"

/-- A second library model, identical to `toyLib` except for the error its
decompression reports, used to show when a glue function's behaviour depends
on the decompression routine. -/
@[reducible] def toyLib2 : EthCrypto :=
  { toyLib with decompressPubkey := fun _ => Except.error "external library error" }

theorem toyLib_sigToPub_eq (d sig : List Nat) :
    toyLib.sigToPub d sig =
      if sig.length = 65 ∧ sig.getD 64 0 ≤ 1 ∧
          (sig.drop 32).take 32 = d.map (fun b => b % 128) then
        Except.ok (sig.take 32)
      else Except.error "invalid signature values" := rfl

theorem toyLib_unmarshal_eq (bz : List Nat) :
    toyLib.unmarshalPubkey bz =
      match bz with
      | 4 :: rest =>
        if rest.length = 64 ∧ rest.drop 32 = List.replicate 32 0 then
          Except.ok (rest.take 32)
        else Except.error "invalid public key"
      | _ => Except.error "invalid public key" := rfl

theorem toyLib_fromECDSAPub_eq (pk : List Nat) :
    toyLib.fromECDSAPub pk = 4 :: (pk ++ List.replicate (64 - pk.length) 0) := rfl

theorem toyLib_ok : EthCryptoOk toyLib := by
  refine ⟨?_, ?_, ?_, ?_, ?_⟩
  · intro k d hk hd
    refine ⟨0, k ++ d.map (fun b => b % 128), Nat.zero_le 1, by simp [hk, hd], rfl, ?_⟩
    have hcond : ((k ++ d.map (fun b => b % 128)) ++ [0]).length = 65 ∧
        ((k ++ d.map (fun b => b % 128)) ++ [0]).getD 64 0 ≤ 1 ∧
        (((k ++ d.map (fun b => b % 128)) ++ [0]).drop 32).take 32 =
          d.map (fun b => b % 128) := by
      refine ⟨by simp [hk, hd], ?_, ?_⟩
      · rw [List.getD_eq_getElem?_getD, List.getElem?_append_right (by simp [hk, hd])]
        simp [hk, hd]
      · rw [List.append_assoc, List.drop_left' hk, List.take_left' (by simp [hd])]
    rw [toyLib_sigToPub_eq, if_pos hcond, List.append_assoc, List.take_left' hk]
  · intro k hk
    exact hk
  · intro pk hpk
    have hpk' : List.length (α := Nat) pk = 32 := hpk
    rw [show (toyLib.fromECDSAPub pk).length =
      (4 :: (pk ++ List.replicate (64 - List.length (α := Nat) pk) 0)).length from rfl]
    simp [hpk']
  · intro pk hpk
    rfl
  · intro pk hpk
    have hpk' : List.length (α := Nat) pk = 32 := hpk
    rw [show toyLib.unmarshalPubkey (toyLib.fromECDSAPub pk) =
      toyLib.unmarshalPubkey (4 :: (pk ++ List.replicate (64 - List.length (α := Nat) pk) 0))
        from rfl, toyLib_unmarshal_eq]
    rw [show (match (4 :: (pk ++ List.replicate (64 - List.length (α := Nat) pk) 0) :
        List Nat) with
      | 4 :: rest =>
        if rest.length = 64 ∧ rest.drop 32 = List.replicate 32 0 then
          Except.ok (rest.take 32)
        else Except.error "invalid public key"
      | _ => Except.error "invalid public key") =
      (if (pk ++ List.replicate (64 - List.length (α := Nat) pk) 0).length = 64 ∧
          (pk ++ List.replicate (64 - List.length (α := Nat) pk) 0).drop 32 =
            List.replicate 32 0 then
        Except.ok ((pk ++ List.replicate (64 - List.length (α := Nat) pk) 0).take 32)
      else Except.error "invalid public key") from rfl]
    rw [if_pos ⟨by simp [hpk'], by rw [hpk']; rw [List.drop_left' hpk']⟩,
      List.take_left' hpk']

theorem toyLib2_ok : EthCryptoOk toyLib2 := by
  constructor
  · exact toyLib_ok.sign_shape
  · exact toyLib_ok.valid_pubkeyOf
  · exact toyLib_ok.fromECDSAPub_len
  · exact toyLib_ok.fromECDSAPub_head
  · exact toyLib_ok.unmarshal_fromECDSAPub

/-! ## Helper lemmas and concrete inputs -/

theorem getD64_append (rs : List Nat) (w : Nat) (h : rs.length = 64) :
    (rs ++ [w]).getD 64 0 = w := by
  rw [List.getD_eq_getElem?_getD, List.getElem?_append_right (by omega)]
  simp [h]

theorem set64_append (rs : List Nat) (w x : Nat) (h : rs.length = 64) :
    (rs ++ [w]).set 64 x = rs ++ [x] := by
  rw [List.set_append_right _ _ (by omega), h]
  rfl

/-- an all-zero 32-byte private key -/
def key0 : List Nat := List.replicate 32 0

/-- an all-zero 32-byte digest -/
def dig0 : List Nat := List.replicate 32 0

/-- an all-zero 20-byte address -/
def addr0 : List Nat := List.replicate 20 0

/-- the signature `toyLib` produces for `key0` and `dig0` -/
def sig0 : List Nat := List.replicate 64 0 ++ [27]

/-! ## Claims -/

/-- **C1.** For every 32-byte private key and every 32-byte digest, signing the
digest with `Sign` and then calling `Verify` with the Ethereum address derived
from that key's public key, the same digest, and the produced signature
returns `true` with no error — for every crypto library satisfying the
documented contract. -/
theorem k1util_C1_sign_verify_roundtrip (L : EthCrypto) (hL : EthCryptoOk L)
    (key digest : List Nat) (hk : key.length = 32) (hd : digest.length = 32) :
    ∃ s, Sign L key digest = Except.ok s ∧
      Verify L (L.pubkeyToAddress (L.pubkeyOf key)) digest s = (true, none) := by
  obtain ⟨recid, rs, hrec, hlen, hsc, hrecov⟩ := hL.sign_shape key digest hk hd
  refine ⟨rs ++ [27 + recid], ?_, ?_⟩
  · simp only [Sign, castArray65, hsc]
    rw [if_neg (by omega), if_pos (by simp [hlen])]
    rfl
  · simp only [Verify, getD64_append rs (27 + recid) hlen]
    rw [if_neg (by omega), show 27 + recid - 27 = recid by omega,
      set64_append rs (27 + recid) recid hlen, hrecov]
    simp

theorem k1util_C1_witness :
    ∃ s, Sign toyLib key0 dig0 = Except.ok s ∧
      Verify toyLib (toyLib.pubkeyToAddress (toyLib.pubkeyOf key0)) dig0 s =
        (true, none) :=
  k1util_C1_sign_verify_roundtrip toyLib toyLib_ok key0 dig0
    (by simp [key0]) (by simp [dig0])

/-- **C2.** For every private key whose byte encoding has length 32 and every
32-byte digest, `Sign` returns a 65-byte signature `R || S || V` with
`V ∈ {27, 28}`, obtained from the library's compact output (recovery byte
first) by rotating the recovery byte from index 0 to index 64. -/
theorem k1util_C2_sign_format (L : EthCrypto) (hL : EthCryptoOk L)
    (key digest : List Nat) (hk : key.length = 32) (hd : digest.length = 32) :
    ∃ s, Sign L key digest = Except.ok s ∧ s.length = 65 ∧
      (s.getD 64 0 = 27 ∨ s.getD 64 0 = 28) ∧
      s = (L.signCompact key digest).drop 1 ++ (L.signCompact key digest).take 1 := by
  obtain ⟨recid, rs, hrec, hlen, hsc, hrecov⟩ := hL.sign_shape key digest hk hd
  refine ⟨rs ++ [27 + recid], ?_, by simp [hlen], ?_, ?_⟩
  · simp only [Sign, castArray65, hsc]
    rw [if_neg (by omega), if_pos (by simp [hlen])]
    rfl
  · rw [getD64_append rs (27 + recid) hlen]
    omega
  · rw [hsc]
    rfl

theorem k1util_C2_witness :
    ∃ s, Sign toyLib key0 dig0 = Except.ok s ∧ s.length = 65 ∧
      (s.getD 64 0 = 27 ∨ s.getD 64 0 = 28) ∧
      s = (toyLib.signCompact key0 dig0).drop 1 ++ (toyLib.signCompact key0 dig0).take 1 :=
  k1util_C2_sign_format toyLib toyLib_ok key0 dig0 (by simp [key0]) (by simp [dig0])

/-- **C3.** For every address, every 32-byte digest, and every 65-byte
signature whose byte at index 64 is neither 27 nor 28, `Verify` returns the
invalid-recovery-id error together with the boolean `false`, without
attempting public-key recovery (the result is independent of the library's
recovery routine: the theorem holds for every `L`). -/
theorem k1util_C3_invalid_recovery_id (L : EthCrypto) (address hash sig : List Nat)
    (hlen : sig.length = 65) (h27 : sig.getD 64 0 ≠ 27) (h28 : sig.getD 64 0 ≠ 28) :
    Verify L address hash sig =
      (false, some "invalid recovery id (V) format, must be 27 or 28") := by
  simp only [Verify]
  rw [if_pos ⟨h27, h28⟩]

theorem k1util_C3_witness :
    Verify toyLib addr0 dig0 (List.replicate 65 0) =
      (false, some "invalid recovery id (V) format, must be 27 or 28") :=
  k1util_C3_invalid_recovery_id toyLib addr0 dig0 (List.replicate 65 0)
    (by simp) (by decide) (by decide)

/-- **C4, counterexample.** The claim includes `CosmosPubkeyToEVMAddress` among
the functions that "validate the input length before any cryptographic
operation and return a length-mismatch error".  On the empty input (length 0
≠ 33) the function does not return the length-mismatch error: it hands the
input to the library's decompression and returns that routine's error, so its
result even depends on which (conforming) library is linked. -/
theorem k1util_C4_counterexample :
    EthCryptoOk toyLib ∧ EthCryptoOk toyLib2 ∧
    CosmosPubkeyToEVMAddress toyLib ([] : List Nat) =
      Except.error "invalid public key" ∧
    CosmosPubkeyToEVMAddress toyLib2 ([] : List Nat) =
      Except.error "external library error" ∧
    CosmosPubkeyToEVMAddress toyLib ([] : List Nat) ≠
      Except.error "invalid pubkey length" :=
  ⟨toyLib_ok, toyLib2_ok, by decide, by decide, by decide⟩

/-- **C4, amended.** For every byte slice whose length is not 33,
`PubKeyToAddress`, `PubKeyBytesToCosmos`, `PBPubKeyFromBytes` and
`PubKeyPBToAddress` validate the input length before any cryptographic
operation and return a length-mismatch error (for every library `L`, so no
cryptographic routine is consulted); `CosmosPubkeyToEVMAddress` performs no
length check and forwards the input to pubkey decompression, returning the
decompression error on failure. -/
theorem k1util_C4_length_validation (L : EthCrypto) (bz : List Nat)
    (h : bz.length ≠ 33) :
    PubKeyToAddress L bz = Except.error "invalid pubkey length" ∧
    PubKeyBytesToCosmos bz = Except.error "invalid pubkey length" ∧
    PBPubKeyFromBytes bz = Except.error "invalid pubkey length" ∧
    PubKeyPBToAddress L bz = Except.error "invalid pubkey length" ∧
    ∀ e, L.decompressPubkey bz = Except.error e →
      CosmosPubkeyToEVMAddress L bz = Except.error e := by
  refine ⟨?_, ?_, ?_, ?_, ?_⟩
  · rw [PubKeyToAddress, if_pos h]
  · rw [PubKeyBytesToCosmos, if_pos h]
  · rw [PBPubKeyFromBytes, if_pos h]
  · rw [PubKeyPBToAddress, if_pos h]
  · intro e he
    rw [CosmosPubkeyToEVMAddress, he]

theorem k1util_C4_witness :
    PubKeyToAddress toyLib [1, 2] = Except.error "invalid pubkey length" ∧
    PubKeyBytesToCosmos [1, 2] = Except.error "invalid pubkey length" ∧
    PBPubKeyFromBytes [1, 2] = Except.error "invalid pubkey length" ∧
    PubKeyPBToAddress toyLib [1, 2] = Except.error "invalid pubkey length" ∧
    ∀ e, toyLib.decompressPubkey [1, 2] = Except.error e →
      CosmosPubkeyToEVMAddress toyLib [1, 2] = Except.error e :=
  k1util_C4_length_validation toyLib [1, 2] (by decide)

/-- **C5.** For every valid secp256k1 public key `pk`, `PubKeyFromBytes64`
applied to `PubKeyToBytes64 pk` returns `pk`: the 64-byte strip-prefix
encoding round-trips through the `0x04`-prefixed reparse without error. -/
theorem k1util_C5_bytes64_roundtrip (L : EthCrypto) (hL : EthCryptoOk L)
    (pk : L.PubKey) (hpk : L.validPub pk) :
    PubKeyFromBytes64 L (PubKeyToBytes64 L pk) = Except.ok pk := by
  have hlen := hL.fromECDSAPub_len pk hpk
  have hhead := hL.fromECDSAPub_head pk hpk
  have hcons : 4 :: (L.fromECDSAPub pk).drop 1 = L.fromECDSAPub pk := by
    rcases h : L.fromECDSAPub pk with _ | ⟨a, t⟩
    · rw [h] at hlen
      simp at hlen
    · rw [h] at hhead
      simp only [List.headD_cons] at hhead
      simp [hhead]
  rw [PubKeyFromBytes64, PubKeyToBytes64, if_neg (by simp [hlen]), hcons,
    hL.unmarshal_fromECDSAPub pk hpk]

theorem k1util_C5_witness :
    PubKeyFromBytes64 toyLib (PubKeyToBytes64 toyLib (List.replicate 32 5)) =
      Except.ok (List.replicate 32 5) :=
  k1util_C5_bytes64_roundtrip toyLib toyLib_ok (List.replicate 32 5) (by simp)

/-- **C6.** For every 64-byte input to `PubKeyFromBytes64` whose
`0x04`-prefixed reconstruction the library rejects (in particular when the
point is not on the curve), the function returns an explicit wrapped error;
being a total function, it never panics and never returns an undefined
value. -/
theorem k1util_C6_unmarshal_error (L : EthCrypto) (bz : List Nat) (e : String)
    (hlen : bz.length = 64)
    (herr : L.unmarshalPubkey (4 :: bz) = Except.error e) :
    PubKeyFromBytes64 L bz = Except.error ("unmarshal pubkey: " ++ e) := by
  rw [PubKeyFromBytes64, if_neg (by simp [hlen]), herr]

theorem k1util_C6_witness :
    PubKeyFromBytes64 toyLib (List.replicate 64 1) =
      Except.error ("unmarshal pubkey: " ++ "invalid public key") :=
  k1util_C6_unmarshal_error toyLib (List.replicate 64 1) "invalid public key"
    (by simp) (by decide)

theorem hexDigit_ne_x {c : Char} {v : Nat} (h : hexDigit c = some v) : c ≠ 'x' := by
  intro hc
  rw [hc, show hexDigit 'x' = none from by decide] at h
  exact Option.noConfusion h

theorem hexDecode_ok_no_x : ∀ (l : List Char) (bz : List Nat),
    hexDecode l = Except.ok bz → ∀ c ∈ l, c ≠ 'x'
  | [], _, _, c, hc => absurd hc (List.not_mem_nil c)
  | [a], bz, h, c, hc => absurd h (by simp [hexDecode])
  | c1 :: c2 :: rest, bz, h, c, hc => by
    simp only [hexDecode] at h
    split at h
    · rename_i hi lo bs heq1 heq2 heq3
      rcases List.mem_cons.mp hc with rfl | hc2
      · exact hexDigit_ne_x heq1
      rcases List.mem_cons.mp hc2 with rfl | hc3
      · exact hexDigit_ne_x heq2
      · exact hexDecode_ok_no_x rest bs heq3 c hc3
    · exact absurd h (by simp)

theorem stripFirst0x_of_no_x (l : List Char) (h : ∀ c ∈ l, c ≠ 'x') :
    stripFirst0x l = l := by
  induction l with
  | nil => rfl
  | cons c rest ih =>
    rw [stripFirst0x.eq_def]
    split
    · rename_i a rest2 heq
      injection heq with h1 h2
      exact absurd rfl
        (h 'x' (by rw [h2]; exact List.mem_cons_of_mem _ (List.mem_cons_self _ _)))
    · rename_i a c' rest' hno heq
      injection heq with h1 h2
      subst h1
      subst h2
      exact congrArg (List.cons c) (ih (fun d hd => h d (List.mem_cons_of_mem _ hd)))
    · rename_i a heq
      exact absurd heq (List.cons_ne_nil c rest)

/-- **C7.** For every hex string `h` that decodes to a 33-byte compressed
public key, `CmpPubKeyToDelegatorAddress` applied to `"0x" ++ h` and to `h`
alone return identical results (identical address strings and identical
errors). -/
theorem k1util_C7_hex_prefix_equiv (L : EthCrypto) (h : List Char) (bz : List Nat)
    (hdec : hexDecode h = Except.ok bz) (hlen : bz.length = 33) :
    CmpPubKeyToDelegatorAddress L ('0' :: 'x' :: h) =
      CmpPubKeyToDelegatorAddress L h := by
  have hstrip : stripFirst0x h = h :=
    stripFirst0x_of_no_x h (hexDecode_ok_no_x h bz hdec)
  have hstrip0 : stripFirst0x ('0' :: 'x' :: h) = h := rfl
  have hd2 : decodePubKeyFromHex ('0' :: 'x' :: h) = decodePubKeyFromHex h := by
    simp only [decodePubKeyFromHex, hstrip0, hstrip]
  simp only [CmpPubKeyToDelegatorAddress, hd2]

/-- a valid 66-character hex encoding of a 33-byte compressed public key -/
def hexStr33 : List Char := '0' :: '2' :: List.replicate 64 '0'

theorem k1util_C7_witness :
    CmpPubKeyToDelegatorAddress toyLib ('0' :: 'x' :: hexStr33) =
      CmpPubKeyToDelegatorAddress toyLib hexStr33 :=
  k1util_C7_hex_prefix_equiv toyLib hexStr33 (2 :: List.replicate 32 0)
    (by decide) (by decide)

/-- **C8, counterexample.** The claim says changing any single byte of R or S
of a valid signature makes `Verify` return `false` with a nil error.  With a
conforming library that (like the real one) rejects out-of-range signature
values, changing byte 32 (the first S byte) of a valid signature from 0 to
128 makes recovery fail, so `Verify` returns an error, not false-with-nil. -/
theorem k1util_C8_counterexample :
    EthCryptoOk toyLib ∧
    Sign toyLib key0 dig0 = Except.ok sig0 ∧
    (32 : Nat) < 64 ∧ (128 : Nat) ≠ sig0.getD 32 0 ∧
    Verify toyLib addr0 dig0 (sig0.set 32 128) =
      (false, some ("recover public key: " ++ "invalid signature values")) ∧
    (Verify toyLib addr0 dig0 (sig0.set 32 128)).2 ≠ none :=
  ⟨toyLib_ok, by decide, by decide, by decide, by decide, by decide⟩

/-- **C8, amended.** Changing a single byte of the R or S portion
(index `i < 64`) of a signature produced by `Sign` never triggers the
invalid-recovery-id path: `Verify` either completes recovery and returns the
address-comparison boolean with a nil error, or surfaces the recovery failure
as an error together with `false`; a recovery failure is never reported as the
boolean `false` with a nil error. -/
theorem k1util_C8_tamper_surfacing (L : EthCrypto) (hL : EthCryptoOk L)
    (address key digest s : List Nat) (hk : key.length = 32)
    (hd : digest.length = 32) (hs : Sign L key digest = Except.ok s)
    (i : Nat) (hi : i < 64) (b : Nat) (hb : b ≠ s.getD i 0) :
    (∃ pk, L.sigToPub digest ((s.set i b).set 64 ((s.set i b).getD 64 0 - 27)) =
        Except.ok pk ∧
      Verify L address digest (s.set i b) =
        (L.pubkeyToAddress pk == address, none)) ∨
    (∃ e, L.sigToPub digest ((s.set i b).set 64 ((s.set i b).getD 64 0 - 27)) =
        Except.error e ∧
      Verify L address digest (s.set i b) =
        (false, some ("recover public key: " ++ e))) := by
  obtain ⟨recid, rs, hrec, hlen, hsc, hrecov⟩ := hL.sign_shape key digest hk hd
  have hsign : Sign L key digest = Except.ok (rs ++ [27 + recid]) := by
    simp only [Sign, castArray65, hsc]
    rw [if_neg (by omega), if_pos (by simp [hlen])]
    rfl
  rw [hsign] at hs
  have hseq : s = rs ++ [27 + recid] := (Except.ok.inj hs).symm
  subst hseq
  have hset : (rs ++ [27 + recid]).set i b = rs.set i b ++ [27 + recid] :=
    List.set_append_left _ _ (by omega)
  have hlen' : (rs.set i b).length = 64 := by simp [hlen]
  have hv : (rs.set i b ++ [27 + recid]).getD 64 0 = 27 + recid :=
    getD64_append _ _ hlen'
  have hset64 : (rs.set i b ++ [27 + recid]).set 64 (27 + recid - 27) =
      rs.set i b ++ [recid] := by
    rw [set64_append _ _ _ hlen', show 27 + recid - 27 = recid by omega]
  rw [hset, hv]
  cases hrc : L.sigToPub digest ((rs.set i b ++ [27 + recid]).set 64 (27 + recid - 27)) with
  | ok pk =>
    refine Or.inl ⟨pk, rfl, ?_⟩
    simp only [Verify, hv]
    rw [if_neg (by omega), hrc]
  | error e =>
    refine Or.inr ⟨e, rfl, ?_⟩
    simp only [Verify, hv]
    rw [if_neg (by omega), hrc]

theorem k1util_C8_witness :
    (∃ pk, toyLib.sigToPub dig0
        ((sig0.set 0 1).set 64 ((sig0.set 0 1).getD 64 0 - 27)) = Except.ok pk ∧
      Verify toyLib addr0 dig0 (sig0.set 0 1) =
        (toyLib.pubkeyToAddress pk == addr0, none)) ∨
    (∃ e, toyLib.sigToPub dig0
        ((sig0.set 0 1).set 64 ((sig0.set 0 1).getD 64 0 - 27)) = Except.error e ∧
      Verify toyLib addr0 dig0 (sig0.set 0 1) =
        (false, some ("recover public key: " ++ e))) :=
  k1util_C8_tamper_surfacing toyLib toyLib_ok addr0 key0 dig0 sig0
    (by simp [key0]) (by simp [dig0]) (by decide) 0 (by decide) 1 (by decide)

/-- **C9.** `Sign` is deterministic: two calls with the same key and digest
return the same 65-byte signature (the embedding models the library's
deterministic-nonce compact signing as a function of key and digest only,
and the glue adds no randomness). -/
theorem k1util_C9_sign_deterministic (L : EthCrypto) (key digest s1 s2 : List Nat)
    (h1 : Sign L key digest = Except.ok s1)
    (h2 : Sign L key digest = Except.ok s2) : s1 = s2 := by
  rw [h1] at h2
  exact Except.ok.inj h2

theorem k1util_C9_witness : sig0 = sig0 :=
  k1util_C9_sign_deterministic toyLib key0 dig0 sig0 sig0 (by decide) (by decide)

/-- an input whose first occurrence of `"0x"` is at position 2, not a prefix -/
def c10_input : List Char := '0' :: '2' :: '0' :: 'x' :: List.replicate 64 '0'

/-- **C10.** `decodePubKeyFromHex` (hence `CmpPubKeyToDelegatorAddress` and
`CmpPubKeyToValidatorAddress`) removes the first occurrence of `"0x"`
anywhere in the input, not only a leading prefix: on an input whose first
two characters are not `"0x"` but that contains `"0x"` at position 2, the
occurrence is stripped, the remaining 66 characters hex-decode to 33 bytes,
and the input is accepted. -/
theorem k1util_C10_strip_anywhere :
    c10_input.take 2 = ['0', '2'] ∧ (['0', '2'] : List Char) ≠ ['0', 'x'] ∧
    stripFirst0x c10_input = '0' :: '2' :: List.replicate 64 '0' ∧
    decodePubKeyFromHex c10_input = Except.ok (2 :: List.replicate 32 0) ∧
    CmpPubKeyToDelegatorAddress toyLib c10_input = Except.ok "storyAccAddress" ∧
    CmpPubKeyToValidatorAddress toyLib c10_input = Except.ok "storyValAddress" :=
  ⟨by decide, by decide, by decide, by decide, by decide, by decide⟩

end K1Util
